import Mathlib

/-!
Shallow embedding of `app_agenda_streamlit.py`: the data-access, query and
cache layers of an agenda/billing application backed by a SQLite database
with two tables, `clients` and `services`.  The store is modelled as lists
of rows plus the AUTOINCREMENT counters; SQL statements become functions on
the store, `ORDER BY` becomes a stable insertion sort (SQLite returns ties
of this query plan in rowid order), and `NULL`able columns become `Option`.
-/

namespace Agenda

/-- A calendar date, as stored in the `service_date` TEXT column in ISO
format; SQLite's `date(...)` comparisons order these lexicographically by
(year, month, day). -/
structure Date where
  year : Nat
  month : Nat
  day : Nat
deriving DecidableEq, Repr

/-- The lexicographic key realising SQLite's ordering of ISO date strings. -/
def Date.key (d : Date) : Lex (Nat × Lex (Nat × Nat)) :=
  toLex (d.year, toLex (d.month, d.day))

theorem Date.key_injective : Function.Injective Date.key := by
  rintro ⟨y1, m1, d1⟩ ⟨y2, m2, d2⟩ h
  simp only [Date.key, Prod.ext_iff] at h
  obtain ⟨h1, h2, h3⟩ := h
  simp_all

instance : LinearOrder Date := LinearOrder.lift' Date.key Date.key_injective

/-- A row of the `clients` table.  `add_client` always writes stripped
strings, so the nullable TEXT columns are modelled as `String`. -/
structure Client where
  id : Nat
  name : String
  phone : String
  address : String
  notes : String
deriving DecidableEq, Repr

/-- A row of the `services` table.  `service_time` and `client_id` are
nullable; `amount REAL` is modelled exactly as a rational. -/
structure Service where
  id : Nat
  service_date : Date
  service_time : Option String
  client_id : Option Nat
  service_type : String
  amount : Rat
  status : String
  notes : String
deriving DecidableEq, Repr

/-- The database: the two tables (rows in rowid order, i.e. insertion
order) plus the AUTOINCREMENT counters. -/
structure Store where
  clients : List Client
  services : List Service
  nextClientId : Nat
  nextServiceId : Nat
deriving DecidableEq, Repr

def Store.empty : Store := ⟨[], [], 1, 1⟩

/-- The schema's CHECK constraint: `status IN ('Pagado','Pendiente')`. -/
def statusOk (st : String) : Bool := st == "Pagado" || st == "Pendiente"

/-! ### Data access layer (§4.1) -/

/-- `add_client`: INSERT INTO clients, with every field `.strip()`ped. -/
def add_client (s : Store) (name phone address notes : String) : Store :=
  { s with
    clients := s.clients ++
      [⟨s.nextClientId, name.trim, phone.trim, address.trim, notes.trim⟩],
    nextClientId := s.nextClientId + 1 }

/-- `update_client`: UPDATE clients SET ... WHERE id=?. -/
def update_client (s : Store) (i : Nat) (name phone address notes : String) :
    Store :=
  { s with
    clients := s.clients.map fun c =>
      if c.id = i then
        { c with name := name.trim, phone := phone.trim,
                 address := address.trim, notes := notes.trim }
      else c }

/-- First statement of `delete_client`:
UPDATE services SET client_id=NULL WHERE client_id=?. -/
def detachServices (i : Nat) (s : Store) : Store :=
  { s with
    services := s.services.map fun v =>
      if v.client_id = some i then { v with client_id := none } else v }

/-- Second statement of `delete_client`: DELETE FROM clients WHERE id=?. -/
def deleteClientRow (i : Nat) (s : Store) : Store :=
  { s with clients := s.clients.filter fun c => c.id != i }

/-- `delete_client`: detach the referencing services, then delete the
client row (both inside one transaction, see the transaction model below). -/
def delete_client (s : Store) (i : Nat) : Store :=
  deleteClientRow i (detachServices i s)

/-- `add_service`: INSERT INTO services; the INSERT fails when the CHECK
constraint on `status` rejects the row. -/
def add_service (s : Store) (d : Date) (t : Option String) (cid : Option Nat)
    (ty : String) (am : Rat) (st : String) (no : String) : Option Store :=
  if statusOk st then
    some { s with
      services := s.services ++ [⟨s.nextServiceId, d, t, cid, ty, am, st, no⟩],
      nextServiceId := s.nextServiceId + 1 }
  else none

/-- `get_service_by_id`: SELECT ... WHERE id=?; `fetchone` returns the
first matching row in scan order, `None` when there is none. -/
def get_service_by_id (s : Store) (i : Nat) : Option Service :=
  s.services.find? fun v => v.id == i

/-- `update_service`: UPDATE services SET ... WHERE id=?; the CHECK
constraint is evaluated on each updated row, so it only fires when some
row matches the WHERE clause. -/
def update_service (s : Store) (i : Nat) (d : Date) (t : Option String)
    (cid : Option Nat) (ty : String) (am : Rat) (st : String) (no : String) :
    Option Store :=
  if (s.services.any fun v => v.id == i) && !statusOk st then none
  else
    some { s with
      services := s.services.map fun v =>
        if v.id = i then
          { v with service_date := d, service_time := t, client_id := cid,
                   service_type := ty, amount := am, status := st, notes := no }
        else v }

/-- `delete_service`: DELETE FROM services WHERE id=?. -/
def delete_service (s : Store) (i : Nat) : Store :=
  { s with services := s.services.filter fun v => v.id != i }

/-! ### Query layer (§4.2) -/

/-- A row of `get_services_df`'s query: the service columns joined (LEFT
JOIN) with the client's name, phone and address, which are NULL when
`client_id` is NULL or dangling. -/
structure ServiceRow where
  id : Nat
  service_date : Date
  service_time : Option String
  client : Option String
  phone : Option String
  address : Option String
  service_type : String
  amount : Rat
  status : String
  notes : String
  client_id : Option Nat
deriving DecidableEq, Repr

/-- LEFT JOIN clients c ON c.id = s.client_id, for one service row. -/
def joinRow (clients : List Client) (v : Service) : ServiceRow :=
  let c := v.client_id.bind fun cid => clients.find? fun c => c.id == cid
  { id := v.id, service_date := v.service_date,
    service_time := v.service_time,
    client := c.map (·.name), phone := c.map (·.phone),
    address := c.map (·.address),
    service_type := v.service_type, amount := v.amount,
    status := v.status, notes := v.notes, client_id := v.client_id }

/-- SQLite's ordering of the nullable `service_time` TEXT column:
NULL sorts before every string, strings by binary collation. -/
def timeKey : Option String → Lex (Bool × String)
  | none => toLex (false, "")
  | some t => toLex (true, t)

/-- The key of `ORDER BY s.service_date, s.service_time`. -/
def rowKey (r : ServiceRow) : Lex (Date × Lex (Bool × String)) :=
  toLex (r.service_date, timeKey r.service_time)

def rowLe (a b : ServiceRow) : Prop := rowKey a ≤ rowKey b

instance : DecidableRel rowLe := fun a b =>
  inferInstanceAs (Decidable (rowKey a ≤ rowKey b))

def clientLe (a b : Client) : Prop := a.name ≤ b.name

instance : DecidableRel clientLe := fun a b =>
  inferInstanceAs (Decidable (a.name ≤ b.name))

/-- `get_clients_df`: SELECT id, name, phone, address, notes FROM clients
ORDER BY name. -/
def get_clients_df (s : Store) : List Client :=
  List.insertionSort clientLe s.clients

/-- `get_services_df`: the joined SELECT, filtered to
`date(service_date) >= date(start) AND date(service_date) < date(end)`
when both bounds are given, ORDER BY service_date, service_time. -/
def get_services_df (s : Store) (start stop : Option Date) : List ServiceRow :=
  let rows := s.services.map (joinRow s.clients)
  let rows :=
    match start, stop with
    | some a, some b =>
        rows.filter fun r =>
          decide (a ≤ r.service_date) && decide (r.service_date < b)
    | _, _ => rows
  List.insertionSort rowLe rows

/-- `month_bounds`: first day of the month and first day of the next
month; December rolls over into January of the next year. -/
def month_bounds (year month : Nat) : Date × Date :=
  let first : Date := ⟨year, month, 1⟩
  let nxt : Date := if month = 12 then ⟨year + 1, 1, 1⟩ else ⟨year, month + 1, 1⟩
  (first, nxt)

/-- The monthly summary computed in the Resumen tab:
paid total, pending total, row count. -/
def monthly_summary (rows : List ServiceRow) : Rat × Rat × Nat :=
  ( ((rows.filter fun r => r.status == "Pagado").map ServiceRow.amount).sum,
    ((rows.filter fun r => r.status == "Pendiente").map ServiceRow.amount).sum,
    rows.length )

/-! ### Transaction model for `delete_client` (§4.1, atomicity)

The Python function opens one connection, executes the two statements and
then calls `con.commit()` once; `sqlite3` runs both inside one implicit
transaction, and closing the connection without the commit rolls back.
We model this structure explicitly: a transaction is a list of actions
(statement executions and commits); a crash at any point leaves the store
at whatever was last committed. -/

inductive SqlStmt where
  | detach (cid : Nat)
  | deleteRow (cid : Nat)
deriving DecidableEq, Repr

def applyStmt (s : Store) : SqlStmt → Store
  | .detach cid => detachServices cid s
  | .deleteRow cid => deleteClientRow cid s

inductive TxnAct where
  | exe (st : SqlStmt)
  | commitAct
deriving DecidableEq, Repr

/-- Run the actions, tracking (pending uncommitted state, durable state). -/
def runActs (s : Store) (acts : List TxnAct) : Store × Store :=
  acts.foldl
    (fun p a =>
      match a with
      | .exe st => (applyStmt p.1 st, p.2)
      | .commitAct => (p.1, p.1))
    (s, s)

/-- The durable store states observable if execution is interrupted after
any prefix of the actions. -/
def crashStates (s : Store) (acts : List TxnAct) : List Store :=
  (List.range (acts.length + 1)).map fun n => (runActs s (acts.take n)).2

/-- The body of `delete_client`: two statement executions, one commit. -/
def deleteClientTxn (cid : Nat) : List TxnAct :=
  [.exe (.detach cid), .exe (.deleteRow cid), .commitAct]

/-! ### Cache layer and UI write handlers (§4.3)

`get_clients_df` and `get_services_df` are wrapped in `st.cache_data`
(keyed by arguments); `update_cache()` calls `.clear()` on both.  Each
button handler in `main` is a straight-line sequence of events; we embed
each handler as its event list. -/

structure Cache where
  clientEntries : List (List Client)
  serviceEntries : List ((Option Date × Option Date) × List ServiceRow)
deriving DecidableEq, Repr

def Cache.empty : Cache := ⟨[], []⟩

/-- The write operations of the data access layer, with their arguments. -/
inductive WriteOp where
  | wAddClient (name phone address notes : String)
  | wUpdateClient (i : Nat) (name phone address notes : String)
  | wDeleteClient (i : Nat)
  | wAddService (d : Date) (t : Option String) (cid : Option Nat)
      (ty : String) (am : Rat) (st : String) (no : String)
  | wUpdateService (i : Nat) (d : Date) (t : Option String) (cid : Option Nat)
      (ty : String) (am : Rat) (st : String) (no : String)
  | wDeleteService (i : Nat)
deriving DecidableEq, Repr

/-- Apply a write to the store; a write rejected by a CHECK constraint
raises in Python and changes nothing. -/
def applyWrite (s : Store) : WriteOp → Store
  | .wAddClient n p a no => add_client s n p a no
  | .wUpdateClient i n p a no => update_client s i n p a no
  | .wDeleteClient i => delete_client s i
  | .wAddService d t cid ty am st no =>
      (add_service s d t cid ty am st no).getD s
  | .wUpdateService i d t cid ty am st no =>
      (update_service s i d t cid ty am st no).getD s
  | .wDeleteService i => delete_service s i

inductive Ev where
  | write (w : WriteOp)
  | clearCache
  | readClients
  | readServices (start stop : Option Date)
deriving DecidableEq, Repr

/-- One step of the store+cache state machine: writes touch only the
store, `update_cache` empties both cached query families, and a cache-miss
read stores its result. -/
def stepEv (p : Store × Cache) : Ev → Store × Cache
  | .write w => (applyWrite p.1 w, p.2)
  | .clearCache => (p.1, Cache.empty)
  | .readClients =>
      (p.1, { p.2 with clientEntries := get_clients_df p.1 :: p.2.clientEntries })
  | .readServices a b =>
      (p.1, { p.2 with
        serviceEntries := ((a, b), get_services_df p.1 a b) :: p.2.serviceEntries })

def runEvs (p : Store × Cache) (evs : List Ev) : Store × Cache :=
  evs.foldl stepEv p

/-- The button handlers of `main` that perform writes, with the events
each one executes in order (reads of widget state are pure and omitted). -/
inductive Handler where
  | saveNewClient (name phone address notes : String)
  | addServiceNewClient (name phone address notes : String) (d : Date)
      (t : Option String) (ty : String) (am : Rat) (st : String) (no : String)
      (cid : Option Nat)
  | addServiceExisting (d : Date) (t : Option String) (cid : Option Nat)
      (ty : String) (am : Rat) (st : String) (no : String)
  | saveService (i : Nat) (d : Date) (t : Option String) (cid : Option Nat)
      (ty : String) (am : Rat) (st : String) (no : String)
  | deleteServiceBtn (i : Nat)
  | saveClient (i : Nat) (name phone address notes : String)
  | deleteClientBtn (i : Nat)

/-- The event sequence each handler runs, transcribed from `main`. -/
def handlerEvents : Handler → List Ev
  | .saveNewClient n p a no =>
      [.write (.wAddClient n p a no), .clearCache]
  | .addServiceNewClient n p a no d t ty am st no2 cid =>
      [.write (.wAddClient n p a no), .clearCache, .readClients,
       .write (.wAddService d t cid ty am st no2), .clearCache]
  | .addServiceExisting d t cid ty am st no =>
      [.write (.wAddService d t cid ty am st no), .clearCache]
  | .saveService i d t cid ty am st no =>
      [.write (.wUpdateService i d t cid ty am st no), .clearCache]
  | .deleteServiceBtn i =>
      [.write (.wDeleteService i), .clearCache]
  | .saveClient i n p a no =>
      [.write (.wUpdateClient i n p a no), .clearCache]
  | .deleteClientBtn i =>
      [.write (.wDeleteClient i), .clearCache]

def Ev.isWrite : Ev → Bool
  | .write _ => true
  | _ => false

def Ev.isClear : Ev → Bool
  | .clearCache => true
  | _ => false

/-- Every write event in the list is followed, strictly later, by a
cache-clear event. -/
def writesFollowedByClear : List Ev → Bool
  | [] => true
  | e :: rest =>
      (!e.isWrite || rest.any Ev.isClear) && writesFollowedByClear rest

/-! ### Spec-side definitions, for comparison with the code -/

/-- Modelled from the spec: `monthlySummary` as one pass over the rows,
accumulating (paidTotal, pendingTotal, count). -/
def specMonthlySummary (rows : List ServiceRow) : Rat × Rat × Nat :=
  rows.foldr
    (fun r acc =>
      ((if r.status = "Pagado" then r.amount else 0) + acc.1,
       (if r.status = "Pendiente" then r.amount else 0) + acc.2.1,
       acc.2.2 + 1))
    (0, 0, 0)

/-- The column defaults and CHECK constraint declared by the `services`
schema (`amount REAL DEFAULT 0`, `status ... DEFAULT 'Pendiente'`). -/
structure ServicesSchema where
  amountDefault : Rat
  statusDefault : String
  statusCheck : String → Bool

def servicesSchema : ServicesSchema :=
  { amountDefault := 0, statusDefault := "Pendiente", statusCheck := statusOk }

/-- The fully deterministic row order of the spec: (date, time) key
strictly below, or equal keys with the tie broken by id. -/
def rowIdLt (a b : ServiceRow) : Prop :=
  rowKey a < rowKey b ∨ (rowKey a = rowKey b ∧ a.id < b.id)

instance : IsTotal ServiceRow rowLe :=
  ⟨fun a b => le_total (rowKey a) (rowKey b)⟩

instance : IsTrans ServiceRow rowLe :=
  ⟨fun _ _ _ hab hbc => le_trans hab hbc⟩

/-! ### Claim theorems -/

/-- Claim C4: `month_bounds year month` returns the pair (first day of the
month, first day of the following month); in particular for every year,
December rolls into January 1st of the next year, and for a month other
than December the second component is the 1st of `month + 1`;
`month_bounds 2024 12 = (2024-12-01, 2025-01-01)`. -/
theorem month_bounds_rollover (year month : Nat) :
    (month_bounds year month).1 = ⟨year, month, 1⟩ ∧
    month_bounds year 12 = (⟨year, 12, 1⟩, ⟨year + 1, 1, 1⟩) ∧
    (month ≠ 12 → (month_bounds year month).2 = ⟨year, month + 1, 1⟩) ∧
    month_bounds 2024 12 = (⟨2024, 12, 1⟩, ⟨2025, 1, 1⟩) := by
  refine ⟨rfl, rfl, fun h => ?_, rfl⟩
  simp [month_bounds, h]

/-- Witness for C4 at a concrete non-December month. -/
theorem month_bounds_rollover_witness :
    (month_bounds 2024 7).2 = ⟨2024, 8, 1⟩ :=
  (month_bounds_rollover 2024 7).2.2.1 (by decide)

/-- Claim C5: the monthly summary computes the paid total as the sum of
`amount` over rows with status Pagado, the pending total over rows with
status Pendiente, and the count as the number of rows (it agrees with the
one-pass accumulator `specMonthlySummary`); the empty input yields the
all-zero summary, and the spec's example evaluates to (125, 50, 3). -/
theorem monthly_summary_correct (rows : List ServiceRow) :
    monthly_summary rows = specMonthlySummary rows ∧
    monthly_summary [] = (0, 0, 0) ∧
    monthly_summary
      [⟨1, ⟨2024, 1, 1⟩, none, none, none, none, "", 100, "Pagado", "", none⟩,
       ⟨2, ⟨2024, 1, 2⟩, none, none, none, none, "", 50, "Pendiente", "", none⟩,
       ⟨3, ⟨2024, 1, 3⟩, none, none, none, none, "", 25, "Pagado", "", none⟩] =
      (125, 50, 3) := by
  refine ⟨?_, rfl, by simp [monthly_summary]; norm_num⟩
  induction rows with
  | nil => rfl
  | cons r rest ih =>
    simp only [monthly_summary, specMonthlySummary, List.foldr_cons,
      List.filter_cons, List.length_cons] at *
    by_cases h1 : r.status = "Pagado" <;> by_cases h2 : r.status = "Pendiente" <;>
      simp_all [Prod.ext_iff]

/-- Claim C3: with both bounds given, `get_services_df` returns exactly the
service rows whose date lies in the half-open interval [start, stop) — a
row dated `start` is kept, a row dated `stop` is dropped — and with no
bounds it returns all services (one row per stored service). -/
theorem get_services_df_range (s : Store) (d1 d2 : Date) :
    (∀ r : ServiceRow,
        r ∈ get_services_df s (some d1) (some d2) ↔
          r ∈ get_services_df s none none ∧
            d1 ≤ r.service_date ∧ r.service_date < d2) ∧
    (get_services_df s none none).length = s.services.length := by
  constructor
  · intro r
    have h1 := (List.perm_insertionSort rowLe
      ((s.services.map (joinRow s.clients)).filter fun r =>
        decide (d1 ≤ r.service_date) && decide (r.service_date < d2))).mem_iff
      (a := r)
    have h2 := (List.perm_insertionSort rowLe
      (s.services.map (joinRow s.clients))).mem_iff (a := r)
    simp only [get_services_df] at *
    rw [h1, h2, List.mem_filter]
    simp [and_assoc]
  · have := (List.perm_insertionSort rowLe
      (s.services.map (joinRow s.clients))).length_eq
    simp only [get_services_df, this, List.length_map]

/-- Claim C1: for a client with at least one referencing service, after
`delete_client` the service table has the same number of rows, every
previously referencing service survives with the same id and fields but
`client_id` set to `none` (a non-referencing service keeps its
`client_id` unchanged), no remaining service references the client, and
the client no longer appears in `get_clients_df`. -/
theorem delete_client_detaches (s : Store) (c : Client) (_hc : c ∈ s.clients)
    (_href : ∃ v ∈ s.services, v.client_id = some c.id) :
    (delete_client s c.id).services.length = s.services.length ∧
    (∀ v ∈ s.services, ∃ v' ∈ (delete_client s c.id).services,
        v'.id = v.id ∧ v'.client_id ≠ some c.id ∧
        (v.client_id = some c.id → v'.client_id = none) ∧
        (v.client_id ≠ some c.id → v'.client_id = v.client_id) ∧
        v'.service_date = v.service_date ∧ v'.service_time = v.service_time ∧
        v'.service_type = v.service_type ∧ v'.amount = v.amount ∧
        v'.status = v.status ∧ v'.notes = v.notes) ∧
    (∀ v' ∈ (delete_client s c.id).services, v'.client_id ≠ some c.id) ∧
    (∀ r ∈ get_clients_df (delete_client s c.id), r.id ≠ c.id) := by
  refine ⟨?_, ?_, ?_, ?_⟩
  · simp [delete_client, deleteClientRow, detachServices]
  · intro v hv
    refine ⟨if v.client_id = some c.id then { v with client_id := none } else v,
      ?_, ?_⟩
    · simp only [delete_client, deleteClientRow, detachServices]
      exact List.mem_map_of_mem _ hv
    · by_cases h : v.client_id = some c.id <;> simp [h]
  · intro v' hv'
    simp only [delete_client, deleteClientRow, detachServices,
      List.mem_map] at hv'
    obtain ⟨v, _, rfl⟩ := hv'
    by_cases h : v.client_id = some c.id <;> simp [h]
  · intro r hr
    have := (List.perm_insertionSort clientLe
      (delete_client s c.id).clients).mem_iff (a := r)
    rw [get_clients_df, this] at hr
    simp only [delete_client, deleteClientRow, detachServices,
      List.mem_filter] at hr
    simpa using hr.2

/-- Witness for C1: deleting client 1 from a store where service 1
references it; the surviving row with id 1 has `client_id = none`. -/
theorem delete_client_detaches_witness :
    let s : Store :=
      ⟨[⟨1, "Ana", "", "", ""⟩], [⟨1, ⟨2024, 1, 1⟩, none, some 1, "fum", 100,
        "Pendiente", ""⟩], 2, 2⟩
    (delete_client s 1).services.length = s.services.length ∧
    (∃ v' ∈ (delete_client s 1).services, v'.id = 1 ∧ v'.client_id = none) ∧
    (∀ v' ∈ (delete_client s 1).services, v'.client_id ≠ some 1) ∧
    (∀ r ∈ get_clients_df (delete_client s 1), r.id ≠ 1) := by
  intro s
  have h := delete_client_detaches s ⟨1, "Ana", "", "", ""⟩ (by simp [s])
    ⟨⟨1, ⟨2024, 1, 1⟩, none, some 1, "fum", 100, "Pendiente", ""⟩, by simp [s]⟩
  obtain ⟨v', hv', hid, -, hnull, -⟩ := h.2.1
    ⟨1, ⟨2024, 1, 1⟩, none, some 1, "fum", 100, "Pendiente", ""⟩ (by simp [s])
  exact ⟨h.1, ⟨v', hv', hid, hnull rfl⟩, h.2.2.1, h.2.2.2⟩

/-- Claim C8: for an id not present in the store (no service row, no
client row, and — store well-formedness — no dangling service reference to
it), `get_service_by_id` returns the absent sentinel `none`, and each of
`delete_service`, `update_service`, `update_client` and `delete_client`
completes as a no-op leaving the store unchanged rather than failing. -/
theorem not_found_noops (s : Store) (i : Nat) (d : Date) (t : Option String)
    (cid : Option Nat) (ty : String) (am : Rat) (st no : String)
    (name phone address notes : String)
    (hsvc : ∀ v ∈ s.services, v.id ≠ i)
    (hcli : ∀ c ∈ s.clients, c.id ≠ i)
    (href : ∀ v ∈ s.services, v.client_id ≠ some i) :
    get_service_by_id s i = none ∧
    delete_service s i = s ∧
    update_service s i d t cid ty am st no = some s ∧
    update_client s i name phone address notes = s ∧
    delete_client s i = s := by
  have hfilter : (s.services.filter fun v => v.id != i) = s.services :=
    List.filter_eq_self.mpr fun v hv => by simp [hsvc v hv]
  have hmapsvc : (s.services.map fun v =>
      if v.id = i then
        { v with service_date := d, service_time := t, client_id := cid,
                 service_type := ty, amount := am, status := st, notes := no }
      else v) = s.services := by
    rw [List.map_congr_left fun v hv => if_neg (hsvc v hv), List.map_id']
  have hany : (s.services.any fun v => v.id == i) = false := by
    simp only [List.any_eq_false, beq_iff_eq]
    exact hsvc
  refine ⟨?_, ?_, ?_, ?_, ?_⟩
  · exact List.find?_eq_none.mpr fun v hv => by simp [hsvc v hv]
  · simp [delete_service, hfilter]
  · simp [update_service, hany, hmapsvc]
  · have : (s.clients.map fun c =>
        if c.id = i then
          { c with name := name.trim, phone := phone.trim,
                   address := address.trim, notes := notes.trim }
        else c) = s.clients := by
      rw [List.map_congr_left fun c hc => if_neg (hcli c hc), List.map_id']
    simp [update_client, this]
  · have hdetach : (s.services.map fun v =>
        if v.client_id = some i then { v with client_id := none } else v) =
        s.services := by
      rw [List.map_congr_left fun v hv => if_neg (href v hv), List.map_id']
    have hkeep : (s.clients.filter fun c => c.id != i) = s.clients :=
      List.filter_eq_self.mpr fun c hc => by simp [hcli c hc]
    simp [delete_client, deleteClientRow, detachServices, hdetach, hkeep]

/-- Witness for C8: id 7 is absent from a one-client, one-service store. -/
theorem not_found_noops_witness :
    let s : Store :=
      ⟨[⟨1, "Ana", "", "", ""⟩], [⟨1, ⟨2024, 1, 1⟩, none, some 1, "fum", 100,
        "Pendiente", ""⟩], 2, 2⟩
    get_service_by_id s 7 = none ∧
    delete_service s 7 = s ∧
    update_service s 7 ⟨2024, 2, 2⟩ none none "x" 1 "Pagado" "" = some s ∧
    update_client s 7 "n" "p" "a" "o" = s ∧
    delete_client s 7 = s := by
  intro s
  exact not_found_noops s 7 ⟨2024, 2, 2⟩ none none "x" 1 "Pagado" ""
    "n" "p" "a" "o" (by decide) (by decide) (by decide)

/-- Claim C10: round trip — when the status is one of the two allowed
values and every stored id is below the autoincrement counter, adding a
service succeeds and looking up the id the store assigned returns a record
with exactly the fields that were passed in. -/
theorem add_service_roundtrip (s : Store) (d : Date) (t : Option String)
    (cid : Option Nat) (ty : String) (am : Rat) (no : String) (st : String)
    (hst : st = "Pagado" ∨ st = "Pendiente")
    (hid : ∀ v ∈ s.services, v.id < s.nextServiceId) :
    ∃ s', add_service s d t cid ty am st no = some s' ∧
      get_service_by_id s' s.nextServiceId =
        some ⟨s.nextServiceId, d, t, cid, ty, am, st, no⟩ := by
  have hok : statusOk st = true := by
    rcases hst with h | h <;> simp [statusOk, h]
  refine ⟨{ s with
      services := s.services ++
        [⟨s.nextServiceId, d, t, cid, ty, am, st, no⟩],
      nextServiceId := s.nextServiceId + 1 }, ?_, ?_⟩
  · simp [add_service, hok]
  · have hnone : (s.services.find? fun v => v.id == s.nextServiceId) = none :=
      List.find?_eq_none.mpr fun v hv => by
        simp [Nat.ne_of_lt (hid v hv)]
    simp [get_service_by_id, List.find?_append, hnone]

/-- Witness for C10 on a store holding one service. -/
theorem add_service_roundtrip_witness :
    let s : Store :=
      ⟨[], [⟨1, ⟨2024, 1, 1⟩, none, none, "fum", 100, "Pendiente", ""⟩], 1, 2⟩
    ∃ s', add_service s ⟨2024, 3, 4⟩ (some "10:00") (some 1) "fum" 250
        "Pagado" "ok" = some s' ∧
      get_service_by_id s' 2 =
        some ⟨2, ⟨2024, 3, 4⟩, some "10:00", some 1, "fum", 250, "Pagado", "ok"⟩ := by
  intro s
  exact add_service_roundtrip s ⟨2024, 3, 4⟩ (some "10:00") (some 1) "fum" 250
    "ok" "Pagado" (Or.inl rfl) (by decide)

/-- Claim C9, counterexample: the data access layer itself accepts a
negative amount — `add_service` on the empty store with amount -5 succeeds
and stores a service whose amount is negative (the schema has no CHECK on
`amount`; non-negativity is enforced only by the UI's number inputs). -/
theorem add_service_negative_amount :
    ∃ s', add_service Store.empty ⟨2024, 1, 1⟩ none none "fum" (-5)
        "Pendiente" "" = some s' ∧
      ∃ v ∈ s'.services, v.amount < 0 := by
  refine ⟨⟨[], [⟨1, ⟨2024, 1, 1⟩, none, none, "fum", -5, "Pendiente", ""⟩],
      1, 2⟩, by simp [add_service, statusOk, Store.empty], ?_⟩
  exact ⟨⟨1, ⟨2024, 1, 1⟩, none, none, "fum", -5, "Pendiente", ""⟩,
    by simp, by norm_num⟩

/-- Claim C9 as amended: when every amount passed to `add_service` or
`update_service` is non-negative (the validation the UI performs before
calling the layer), non-negativity of all stored amounts is preserved;
and the schema declares DEFAULT 0 for `amount`. -/
theorem amount_nonneg_preserved (s : Store) (i : Nat) (d : Date)
    (t : Option String) (cid : Option Nat) (ty : String) (am : Rat)
    (st no : String) (ham : 0 ≤ am) (hs : ∀ v ∈ s.services, 0 ≤ v.amount) :
    (∀ s', add_service s d t cid ty am st no = some s' →
      ∀ v ∈ s'.services, 0 ≤ v.amount) ∧
    (∀ s', update_service s i d t cid ty am st no = some s' →
      ∀ v ∈ s'.services, 0 ≤ v.amount) ∧
    servicesSchema.amountDefault = 0 := by
  refine ⟨?_, ?_, rfl⟩
  · intro s' hs' v hv
    rw [add_service] at hs'
    split at hs'
    · cases hs'
      simp only [List.mem_append, List.mem_singleton] at hv
      rcases hv with hv | rfl
      · exact hs v hv
      · exact ham
    · cases hs'
  · intro s' hs' v hv
    rw [update_service] at hs'
    split at hs'
    · cases hs'
    · cases hs'
      simp only [List.mem_map] at hv
      obtain ⟨w, hw, rfl⟩ := hv
      by_cases h : w.id = i
      · simp only [if_pos h]
        exact ham
      · simp only [if_neg h]
        exact hs w hw

/-- Witness for C9 (amended) at a concrete non-negative insert: the row
stored by `add_service` on the empty store with amount 100 is
non-negative. -/
theorem amount_nonneg_preserved_witness :
    0 ≤ (⟨1, ⟨2024, 1, 1⟩, none, none, "fum", 100, "Pendiente", ""⟩ :
      Service).amount :=
  (amount_nonneg_preserved Store.empty 1 ⟨2024, 1, 1⟩ none none "fum" 100
      "Pendiente" "" (by norm_num) (by simp [Store.empty])).1
    ⟨[], [⟨1, ⟨2024, 1, 1⟩, none, none, "fum", 100, "Pendiente", ""⟩], 1, 2⟩
    (by simp [add_service, statusOk, Store.empty])
    ⟨1, ⟨2024, 1, 1⟩, none, none, "fum", 100, "Pendiente", ""⟩ (by simp)

/-- Claim C2: `delete_client` executes its two statements and then one
commit; whatever prefix of those actions runs before an interruption, the
durable store is either the initial state or the fully completed state
(which is `delete_client` itself), and in particular no observable state
has the client row deleted while referencing services still point at it. -/
theorem delete_client_atomic (s : Store) (i : Nat)
    (hc : ∃ c ∈ s.clients, c.id = i) :
    (runActs s (deleteClientTxn i)).2 = delete_client s i ∧
    (∀ u ∈ crashStates s (deleteClientTxn i),
      u = s ∨ u = delete_client s i) ∧
    (∀ u ∈ crashStates s (deleteClientTxn i),
      ¬ ((∀ c ∈ u.clients, c.id ≠ i) ∧ ∃ v ∈ u.services, v.client_id = some i)) := by
  have hcrash : crashStates s (deleteClientTxn i) =
      [s, s, s, delete_client s i] := rfl
  refine ⟨rfl, ?_, ?_⟩
  · intro u hu
    rw [hcrash] at hu
    simp only [List.mem_cons, List.not_mem_nil, or_false] at hu
    rcases hu with rfl | rfl | rfl | rfl
    · exact Or.inl rfl
    · exact Or.inl rfl
    · exact Or.inl rfl
    · exact Or.inr rfl
  · intro u hu
    rw [hcrash] at hu
    simp only [List.mem_cons, List.not_mem_nil, or_false] at hu
    obtain ⟨c, hcm, hci⟩ := hc
    rcases hu with rfl | rfl | rfl | rfl
    · rintro ⟨habs, -⟩; exact habs c hcm hci
    · rintro ⟨habs, -⟩; exact habs c hcm hci
    · rintro ⟨habs, -⟩; exact habs c hcm hci
    · rintro ⟨-, v, hv, hvi⟩
      simp only [delete_client, deleteClientRow, detachServices,
        List.mem_map] at hv
      obtain ⟨w, -, rfl⟩ := hv
      by_cases h : w.client_id = some i <;> simp [h] at hvi

/-- Witness for C2: the transaction on a one-client store. -/
theorem delete_client_atomic_witness :
    let s : Store := ⟨[⟨1, "Ana", "", "", ""⟩],
      [⟨1, ⟨2024, 1, 1⟩, none, some 1, "fum", 100, "Pendiente", ""⟩], 2, 2⟩
    (runActs s (deleteClientTxn 1)).2 = delete_client s 1 ∧
    ∀ u ∈ crashStates s (deleteClientTxn 1), u = s ∨ u = delete_client s 1 := by
  intro s
  have h := delete_client_atomic s 1 ⟨⟨1, "Ana", "", "", ""⟩, by simp [s], rfl⟩
  exact ⟨h.1, h.2.1⟩

/-- Claim C7: in every write-performing button handler of `main`, each
data-access write event is followed (strictly later) by a clear of both
cached query families, never only preceded by one; and running any such
handler from any store and any cache contents ends with the cache empty,
so no successful write leaves a stale cached entry. -/
theorem writes_invalidate_cache (h : Handler) (s : Store) (c : Cache) :
    writesFollowedByClear (handlerEvents h) = true ∧
    ((handlerEvents h).any Ev.isWrite = true →
      (runEvs (s, c) (handlerEvents h)).2 = Cache.empty) := by
  cases h <;> exact ⟨rfl, fun _ => rfl⟩

/-- Witness for C7: the delete-service button handler on a concrete store
and a non-empty cache. -/
theorem writes_invalidate_cache_witness :
    writesFollowedByClear (handlerEvents (.deleteServiceBtn 1)) = true ∧
    (runEvs (Store.empty, ⟨[[⟨9, "stale", "", "", ""⟩]], []⟩)
      (handlerEvents (.deleteServiceBtn 1))).2 = Cache.empty := by
  refine ⟨(writes_invalidate_cache (.deleteServiceBtn 1) Store.empty
    ⟨[[⟨9, "stale", "", "", ""⟩]], []⟩).1, ?_⟩
  exact (writes_invalidate_cache (.deleteServiceBtn 1) Store.empty
    ⟨[[⟨9, "stale", "", "", ""⟩]], []⟩).2 (by decide)

theorem rowIdLt_rowLe {a b : ServiceRow} (h : rowIdLt a b) : rowLe a b :=
  h.elim le_of_lt fun hh => le_of_eq hh.1

theorem orderedInsert_pairwise_rowIdLt (x : ServiceRow) (l : List ServiceRow)
    (hl : l.Pairwise rowIdLt) (hx : ∀ y ∈ l, x.id < y.id) :
    (List.orderedInsert rowLe x l).Pairwise rowIdLt := by
  induction l with
  | nil => simp [List.orderedInsert]
  | cons y ys ih =>
    rw [List.orderedInsert]
    by_cases h : rowLe x y
    · rw [if_pos h]
      refine List.Pairwise.cons ?_ hl
      intro z hz
      rcases List.mem_cons.mp hz with rfl | hz'
      · rcases lt_or_eq_of_le h with hlt | heq
        · exact Or.inl hlt
        · exact Or.inr ⟨heq, hx _ (List.mem_cons_self _ _)⟩
      · have hyz : rowKey y ≤ rowKey z :=
          rowIdLt_rowLe (List.rel_of_pairwise_cons hl hz')
        rcases lt_or_eq_of_le (le_trans h hyz) with hlt | heq
        · exact Or.inl hlt
        · exact Or.inr ⟨heq, hx _ (List.mem_cons_of_mem _ hz')⟩
    · rw [if_neg h]
      have hyx : rowKey y < rowKey x := not_le.mp h
      refine List.Pairwise.cons ?_
        (ih (List.Pairwise.of_cons hl) fun z hz => hx _ (List.mem_cons_of_mem _ hz))
      intro z hz
      rcases (List.mem_orderedInsert rowLe).mp hz with rfl | hz'
      · exact Or.inl hyx
      · exact List.rel_of_pairwise_cons hl hz'

theorem insertionSort_pairwise_rowIdLt (l : List ServiceRow)
    (hl : l.Pairwise fun a b => a.id < b.id) :
    (List.insertionSort rowLe l).Pairwise rowIdLt := by
  induction l with
  | nil => simp
  | cons a l ih =>
    rw [List.insertionSort]
    refine orderedInsert_pairwise_rowIdLt a _ (ih hl.of_cons) ?_
    intro y hy
    exact List.rel_of_pairwise_cons hl
      ((List.perm_insertionSort rowLe l).mem_iff.mp hy)

/-- Claim C6: the rows returned by `get_services_df` are sorted by
`service_date` ascending then `service_time` ascending (NULL time first);
and — since SQLite feeds this ORDER BY ties in rowid order, modelled by a
stable sort over the table in rowid order — when the stored ids are
strictly increasing, rows with equal (date, time) keys appear in
increasing id order, so the order is fully deterministic. -/
theorem services_sorted_deterministic (s : Store) (start stop : Option Date)
    (hids : s.services.Pairwise fun a b => a.id < b.id) :
    (get_services_df s start stop).Pairwise rowLe ∧
    (get_services_df s start stop).Pairwise rowIdLt := by
  constructor
  · rcases start with _ | a <;> rcases stop with _ | b <;>
      exact List.sorted_insertionSort rowLe _
  · have hmap : (s.services.map (joinRow s.clients)).Pairwise
        (fun a b => a.id < b.id) := by
      rw [List.pairwise_map]
      exact hids
    rcases start with _ | a <;> rcases stop with _ | b <;>
      first
        | exact insertionSort_pairwise_rowIdLt _ hmap
        | exact insertionSort_pairwise_rowIdLt _ (hmap.filter _)

/-- Witness for C6: two services sharing date and time, ids 1 then 2. -/
theorem services_sorted_deterministic_witness :
    let s : Store := ⟨[],
      [⟨1, ⟨2024, 1, 1⟩, some "10:00", none, "a", 0, "Pendiente", ""⟩,
       ⟨2, ⟨2024, 1, 1⟩, some "10:00", none, "b", 0, "Pendiente", ""⟩], 1, 3⟩
    (get_services_df s none none).Pairwise rowLe ∧
    (get_services_df s none none).Pairwise rowIdLt := by
  intro s
  exact services_sorted_deterministic s none none (by decide)

end Agenda
